import Mathlib

/-!
Verification of the URL-validation core of the http_io crate
(src/url.rs), shallowly embedded in Lean 4.

The external generic URI parser is the url crate: its Url type is
modelled as a record of the components the code under verification reads
(scheme, host_str, port, and the rendering components), together with a
well-formedness predicate Url.wf capturing the guarantees the url crate
provides for every value it produces (scheme normalized to lowercase at
parse time; special schemes always carry a non-empty host), guarantees
that src/url.rs relies on and pins down in its own tests
(check_url_must_have_host, scheme_to_port).

Rust String::to_lowercase is modelled on its ASCII fragment
(lowerChar / lowerStr), which is the fragment exercised by scheme
tokens.

A Rust expression that can panic (an unwrap on None) is embedded with an
Option around the result of the enclosing function: none is a panic,
some a normal return.

The string entry points (FromStr / TryFrom of a string slice) call the
external Url parser; that parser is a parameter P of the embedding, of
type String to Except String Url, returning either a diagnostic message
or a parsed Url.
-/

/-- ASCII lowercasing of one character: the letters A to Z shift by 32,
everything else is unchanged (model of the relevant fragment of Rust
char lowercasing used by str::to_lowercase). -/
def lowerChar (c : Char) : Char :=
  if 65 ≤ c.toNat ∧ c.toNat ≤ 90 then Char.ofNat (c.toNat + 32) else c

/-- ASCII lowercasing of a string (model of Rust str::to_lowercase on
the ASCII fragment). -/
def lowerStr (s : String) : String :=
  ⟨s.data.map lowerChar⟩

/-- Modelled from the spec: the type crate::error::Error lives in
src/error.rs, which is not among the examined sources; section 6 of the
spec describes a single error kind with a human-readable message, the
variant produced by this core being a URL error carrying a message
string. -/
inductive Error where
  | UrlError (msg : String)
deriving DecidableEq, Repr

/-- Scheme enum from src/url.rs: closed tagged union with a catch-all
variant carrying the unrecognized (lowercased) token. -/
inductive Scheme where
  | Http
  | Https
  | File
  | Other (s : String)
deriving DecidableEq, Repr

/-- Embedding of impl FromStr for Scheme from src/url.rs: lowercase the
token and match it against the known scheme names; anything else becomes
Other with the lowercased token. Always returns Ok. -/
def Scheme.from_str (s : String) : Except Error Scheme :=
  .ok (match lowerStr s with
    | "http" => .Http
    | "https" => .Https
    | "file" => .File
    | t => .Other t)

/-- Embedding of impl Display for Scheme from src/url.rs. -/
def Scheme.render : Scheme → String
  | .Http => "http"
  | .Https => "https"
  | .File => "file"
  | .Other s => s

/-- Model of the external url::Url value: the components that src/url.rs
reads from it. The host field is none when the URL has no host
(Url::host_str returns None in Rust). -/
structure Url where
  scheme : String
  host : Option String
  port : Option Nat
  path : String
  query : Option String
  fragment : Option String
deriving DecidableEq, Repr

/-- Model of the default-port table of the url crate, pinned down by the
scheme_to_port test in src/url.rs: http and ws map to 80, https and wss
to 443, ftp to 21, anything else has no known default. -/
def Url.default_port (scheme : String) : Option Nat :=
  if scheme = "http" ∨ scheme = "ws" then some 80
  else if scheme = "https" ∨ scheme = "wss" then some 443
  else if scheme = "ftp" then some 21
  else none

/-- Model of url::Url::port_or_known_default: the explicit port when
present, else the well-known default of the scheme. -/
def Url.port_or_known_default (u : Url) : Option Nat :=
  u.port.or (Url.default_port u.scheme)

/-- Model of url::Url::host_str. -/
def Url.host_str (u : Url) : Option String :=
  u.host

/-- Model of the canonical rendering of the url crate (impl Display for
Url) over the modelled components. -/
def Url.render (u : Url) : String :=
  u.scheme ++ "://"
    ++ (match u.host with | some h => h | none => "")
    ++ (match u.port with | some p => ":" ++ toString p | none => "")
    ++ u.path
    ++ (match u.query with | some q => "?" ++ q | none => "")
    ++ (match u.fragment with | some f => "#" ++ f | none => "")

/-- Guarantees the url crate provides for every Url value it produces,
relied upon by src/url.rs: the scheme is normalized to lowercase at
parse time, and the special schemes (those of the scheme_to_port and
check_url_must_have_host tests: http, https, ws, wss, ftp) always carry
a non-empty host. -/
def Url.wf (u : Url) : Prop :=
  lowerStr u.scheme = u.scheme ∧
    (u.scheme = "http" ∨ u.scheme = "https" ∨ u.scheme = "ws" ∨
        u.scheme = "wss" ∨ u.scheme = "ftp" →
      u.host ≠ none ∧ u.host ≠ some "")

instance (u : Url) : Decidable u.wf := by
  unfold Url.wf
  infer_instance

/-- HttpUrl struct from src/url.rs: the validated value retaining the
original Url, the classified scheme and an owned copy of the host. -/
structure HttpUrl where
  url : Url
  scheme : Scheme
  host : String
deriving DecidableEq, Repr

/-- Embedding of error_unsupported_url_scheme from src/url.rs. -/
def error_unsupported_url_scheme (scheme : String) : Error :=
  .UrlError ("unsupported URL scheme " ++ scheme)

/-- Embedding of impl TryFrom of Url for HttpUrl from src/url.rs:
classify the scheme, reject anything that is not http or https, then
unwrap the host (the outer Option is that unwrap: none means the unwrap
panicked). -/
def HttpUrl.try_from (url : Url) : Option (Except Error HttpUrl) :=
  match Scheme.from_str url.scheme with
  | .error e => some (.error e)
  | .ok scheme =>
    if scheme ≠ .Http ∧ scheme ≠ .Https then
      some (.error (error_unsupported_url_scheme url.scheme))
    else
      match url.host_str with
      | none => none
      | some host => some (.ok { url := url, scheme := scheme, host := host })

/-- Embedding of HttpUrl::port from src/url.rs, which is
port_or_known_default().unwrap(); none is the panic of that unwrap. -/
def HttpUrl.port (h : HttpUrl) : Option Nat :=
  h.url.port_or_known_default

/-- Embedding of the HttpUrl::scheme accessor from src/url.rs. -/
def HttpUrl.getScheme (h : HttpUrl) : Scheme :=
  h.scheme

/-- Embedding of the HttpUrl::host accessor from src/url.rs. -/
def HttpUrl.getHost (h : HttpUrl) : String :=
  h.host

/-- Embedding of impl FromStr for HttpUrl from src/url.rs, parameterized
by the external generic parser P (url::Url::parse): wrap the diagnostic
of a parse failure into Error.UrlError, otherwise hand the Url to
try_from. -/
def HttpUrl.from_str (P : String → Except String Url) (s : String) :
    Option (Except Error HttpUrl) :=
  match P s with
  | .error e => some (.error (.UrlError e))
  | .ok url => HttpUrl.try_from url

/-- Embedding of impl TryFrom of a string slice for HttpUrl from
src/url.rs: delegates to value.parse(), that is, to the FromStr
implementation. -/
def HttpUrl.try_from_str (P : String → Except String Url) (s : String) :
    Option (Except Error HttpUrl) :=
  HttpUrl.from_str P s

/-- Embedding of impl Display for HttpUrl from src/url.rs: delegates to
the rendering of the retained Url. -/
def HttpUrl.render (h : HttpUrl) : String :=
  Url.render h.url

instance {ε α : Type} [DecidableEq ε] [DecidableEq α] :
    DecidableEq (Except ε α) := fun x y =>
  match x, y with
  | .error e, .error e2 =>
    if h : e = e2 then .isTrue (by rw [h]) else .isFalse (by simp [h])
  | .error _, .ok _ => .isFalse (by simp)
  | .ok _, .error _ => .isFalse (by simp)
  | .ok a, .ok a2 =>
    if h : a = a2 then .isTrue (by rw [h]) else .isFalse (by simp [h])

/-- Concrete Url for witnesses: the parse of the string
http followed by colon-slash-slash a.com slash. -/
def urlHttpACom : Url :=
  { scheme := "http", host := some "a.com", port := none, path := "/",
    query := none, fragment := none }

/-- Concrete validated value for witnesses, built from urlHttpACom. -/
def httpUrlACom : HttpUrl :=
  { url := urlHttpACom, scheme := .Http, host := "a.com" }

/-- Concrete Url for witnesses: an https URL with an explicit port. -/
def urlHttpsPort : Url :=
  { scheme := "https", host := some "a.com", port := some 9000,
    path := "/b/c/d", query := none, fragment := none }

/-- Concrete validated value for witnesses, built from urlHttpsPort. -/
def httpUrlHttpsPort : HttpUrl :=
  { url := urlHttpsPort, scheme := .Https, host := "a.com" }

/-- Concrete Url for counterexamples: scheme http but no host at all
(not producible by the url crate, but a legal inhabitant of the generic
URL data model quantified over by the claims). -/
def urlNoHost : Url :=
  { scheme := "http", host := none, port := none, path := "/",
    query := none, fragment := none }

/-- Concrete Url for counterexamples: scheme http with an empty host. -/
def urlEmptyHost : Url :=
  { scheme := "http", host := some "", port := none, path := "/",
    query := none, fragment := none }

/-- Concrete Url for witnesses: a file URL, as in the
parse_http_url_from_other_scheme test of src/url.rs. -/
def urlFile : Url :=
  { scheme := "file", host := none, port := none, path := "/mnt/sdcard",
    query := none, fragment := none }

/-- Concrete external-parser stand-in for witnesses: succeeds exactly on
the rendering of urlHttpACom and fails with a fixed diagnostic
otherwise. -/
def stubP : String → Except String Url := fun s =>
  if s = "http://a.com/" then .ok urlHttpACom
  else .error "relative URL without a base"

theorem toNat_ofNat_of_valid (n : Nat) (h : n.isValidChar) :
    (Char.ofNat n).toNat = n := by
  unfold Char.ofNat
  rw [dif_pos h]
  unfold Char.ofNatAux Char.toNat
  simp [UInt32.toNat, UInt32.ofNatCore]

theorem lowerChar_idem (c : Char) : lowerChar (lowerChar c) = lowerChar c := by
  by_cases h : 65 ≤ c.toNat ∧ c.toNat ≤ 90
  · have h1 : lowerChar c = Char.ofNat (c.toNat + 32) := if_pos h
    have htn : (Char.ofNat (c.toNat + 32)).toNat = c.toNat + 32 :=
      toNat_ofNat_of_valid _ (Or.inl (by omega))
    rw [h1]
    unfold lowerChar
    rw [if_neg (by rw [htn]; omega)]
  · have h1 : lowerChar c = c := if_neg h
    rw [h1, h1]

theorem lowerStr_idem (s : String) : lowerStr (lowerStr s) = lowerStr s := by
  have hf : lowerChar ∘ lowerChar = lowerChar := funext lowerChar_idem
  unfold lowerStr
  rw [List.map_map, hf]

theorem scheme_from_str_http_iff (s : String) :
    Scheme.from_str s = .ok .Http ↔ lowerStr s = "http" := by
  unfold Scheme.from_str
  constructor
  · intro h
    injection h with h
    split at h
    · assumption
    · exact absurd h (by simp)
    · exact absurd h (by simp)
    · exact absurd h (by simp)
  · intro h
    rw [h]
    rfl

theorem scheme_from_str_https_iff (s : String) :
    Scheme.from_str s = .ok .Https ↔ lowerStr s = "https" := by
  unfold Scheme.from_str
  constructor
  · intro h
    injection h with h
    split at h
    · exact absurd h (by simp)
    · assumption
    · exact absurd h (by simp)
    · exact absurd h (by simp)
  · intro h
    rw [h]
    rfl

theorem try_from_inv (u : Url) (h : HttpUrl)
    (hh : HttpUrl.try_from u = some (.ok h)) :
    h.url = u ∧ Scheme.from_str u.scheme = .ok h.scheme ∧
      (h.scheme = .Http ∨ h.scheme = .Https) ∧ u.host = some h.host := by
  unfold HttpUrl.try_from at hh
  split at hh
  · exact absurd hh (by simp)
  · next c heq =>
    split at hh
    · exact absurd hh (by simp)
    · next hcond =>
      rw [not_and_or, not_not, not_not] at hcond
      split at hh
      · exact absurd hh (by simp)
      · next host hhost =>
        injection hh with hh
        injection hh with hh
        subst hh
        exact ⟨rfl, heq, hcond, hhost⟩

theorem try_from_mk (u : Url) (c : Scheme)
    (hc : Scheme.from_str u.scheme = .ok c)
    (hhttp : c = .Http ∨ c = .Https)
    (host : String) (hhost : u.host = some host) :
    HttpUrl.try_from u = some (.ok { url := u, scheme := c, host := host }) := by
  unfold HttpUrl.try_from
  rw [hc]
  dsimp only
  rw [if_neg (by rw [not_and_or, not_not, not_not]; exact hhttp)]
  unfold Url.host_str
  rw [hhost]

theorem wf_scheme_http (u : Url) (hwf : u.wf)
    (hc : Scheme.from_str u.scheme = .ok Scheme.Http) : u.scheme = "http" := by
  have h := (scheme_from_str_http_iff u.scheme).mp hc
  rw [hwf.1] at h
  exact h

theorem wf_scheme_https (u : Url) (hwf : u.wf)
    (hc : Scheme.from_str u.scheme = .ok Scheme.Https) : u.scheme = "https" := by
  have h := (scheme_from_str_https_iff u.scheme).mp hc
  rw [hwf.1] at h
  exact h

theorem wf_host (u : Url) (hwf : u.wf)
    (hs : u.scheme = "http" ∨ u.scheme = "https") :
    ∃ hst, u.host = some hst ∧ hst ≠ "" := by
  have h2 : u.host ≠ none ∧ u.host ≠ some "" := by
    apply hwf.2
    rcases hs with h | h
    · exact Or.inl h
    · exact Or.inr (Or.inl h)
  cases hu : u.host with
  | none => exact absurd hu h2.1
  | some hst =>
    refine ⟨hst, rfl, ?_⟩
    intro he
    rw [he] at hu
    exact h2.2 hu

theorem port_master (u : Url) (hwf : u.wf) (h : HttpUrl)
    (hh : HttpUrl.try_from u = some (.ok h)) :
    HttpUrl.port h =
      some (u.port.getD (if h.scheme = Scheme.Https then 443 else 80)) := by
  obtain ⟨hu, hc, hor, hhost⟩ := try_from_inv u h hh
  unfold HttpUrl.port Url.port_or_known_default
  rw [hu]
  rcases hor with h1 | h1
  · have hs : u.scheme = "http" := wf_scheme_http u hwf (by rw [← h1]; exact hc)
    rw [hs, h1]
    cases u.port <;> rfl
  · have hs : u.scheme = "https" := wf_scheme_https u hwf (by rw [← h1]; exact hc)
    rw [hs, h1]
    cases u.port <;> rfl

theorem try_from_wf_not_panic (u : Url) (hwf : u.wf) :
    HttpUrl.try_from u ≠ none := by
  obtain ⟨c, hc⟩ : ∃ c, Scheme.from_str u.scheme = .ok c := ⟨_, rfl⟩
  by_cases hcc : c ≠ Scheme.Http ∧ c ≠ Scheme.Https
  · unfold HttpUrl.try_from
    rw [hc]
    dsimp only
    rw [if_pos hcc]
    simp
  · rw [not_and_or, not_not, not_not] at hcc
    have hs : u.scheme = "http" ∨ u.scheme = "https" := by
      rcases hcc with h1 | h1
      · exact Or.inl (wf_scheme_http u hwf (by rw [← h1]; exact hc))
      · exact Or.inr (wf_scheme_https u hwf (by rw [← h1]; exact hc))
    obtain ⟨hst, hho, _⟩ := wf_host u hwf hs
    rw [try_from_mk u c hc hcc hst hho]
    simp

/-- Counterexample to C1 as stated: for a generic URL whose scheme
classifies as Http but whose host is absent, the validating constructor
returns no typed result at all (the host unwrap panics, embedded as
none), and for an empty host it silently succeeds, storing the empty
host; in neither case is a dedicated MissingHost error returned (no such
variant exists in the error type). -/
theorem try_from_missing_host_counterexample :
    HttpUrl.try_from urlNoHost = none ∧
      HttpUrl.try_from urlEmptyHost =
        some (.ok { url := urlEmptyHost, scheme := Scheme.Http, host := "" }) := by
  exact ⟨by decide, by decide⟩

/-- C1 (amended): the validating constructor performs no host check at
all: when the scheme classifies as Http or Https and the host is absent
it panics on the unwrap (no typed result), and when a host string is
present, even the empty one, it succeeds, storing that host verbatim; no
MissingHost error is ever produced (the error type has no such
variant). -/
theorem try_from_host_unchecked (u : Url) (c : Scheme)
    (hc : Scheme.from_str u.scheme = .ok c)
    (hhttp : c = Scheme.Http ∨ c = Scheme.Https) :
    (u.host = none → HttpUrl.try_from u = none) ∧
    (∀ hs, u.host = some hs →
      HttpUrl.try_from u = some (.ok { url := u, scheme := c, host := hs })) := by
  constructor
  · intro hn
    unfold HttpUrl.try_from
    rw [hc]
    dsimp only
    rw [if_neg (by rw [not_and_or, not_not, not_not]; exact hhttp)]
    unfold Url.host_str
    rw [hn]
  · intro hs hsome
    exact try_from_mk u c hc hhttp hs hsome

/-- Witness for C1 (amended) at concrete inputs: an http URL without a
host panics, and the usual http URL with host a.com validates. -/
theorem try_from_host_unchecked_witness :
    HttpUrl.try_from urlNoHost = none ∧
      HttpUrl.try_from urlHttpACom = some (.ok httpUrlACom) := by
  refine ⟨(try_from_host_unchecked urlNoHost .Http (by decide) (Or.inl rfl)).1 rfl, ?_⟩
  exact (try_from_host_unchecked urlHttpACom .Http (by decide) (Or.inl rfl)).2
    "a.com" rfl

/-- C2: for every validated value constructed from a well-formed generic
URL, port() returns a numeric port (never panics): the explicit port of
the URL when present, otherwise 80 when the stored scheme is Http and
443 when it is Https. -/
theorem http_url_port_resolution (u : Url) (hwf : u.wf) (h : HttpUrl)
    (hh : HttpUrl.try_from u = some (.ok h)) :
    (HttpUrl.port h).isSome = true ∧
    (∀ p, u.port = some p → HttpUrl.port h = some p) ∧
    (u.port = none → h.scheme = Scheme.Http → HttpUrl.port h = some 80) ∧
    (u.port = none → h.scheme = Scheme.Https → HttpUrl.port h = some 443) := by
  have hm := port_master u hwf h hh
  refine ⟨?_, ?_, ?_, ?_⟩
  · rw [hm]
    rfl
  · intro p hp
    rw [hm, hp]
    rfl
  · intro hp h1
    rw [hm, hp, h1]
    rfl
  · intro hp h1
    rw [hm, hp, h1]
    rfl

/-- Witness for C2 at a concrete https URL with explicit port 9000. -/
theorem http_url_port_resolution_witness :
    (HttpUrl.port httpUrlHttpsPort).isSome = true ∧
      HttpUrl.port httpUrlHttpsPort = some 9000 := by
  have H := http_url_port_resolution urlHttpsPort (by decide)
    httpUrlHttpsPort (by decide)
  exact ⟨H.1, H.2.1 9000 rfl⟩

/-- C3: the validating constructor returns an error exactly when the
classified scheme is neither Http nor Https, that error carries the
message unsupported URL scheme followed by the scheme token exactly as
reported by the generic parser, and on a well-formed URL with a
supported scheme the constructor succeeds. -/
theorem try_from_unsupported_scheme_spec (u : Url) :
    ((∃ e, HttpUrl.try_from u = some (.error e)) ↔
        Scheme.from_str u.scheme ≠ .ok Scheme.Http ∧
          Scheme.from_str u.scheme ≠ .ok Scheme.Https) ∧
    (∀ e, HttpUrl.try_from u = some (.error e) →
        e = Error.UrlError ("unsupported URL scheme " ++ u.scheme)) ∧
    (u.wf → (Scheme.from_str u.scheme = .ok Scheme.Http ∨
          Scheme.from_str u.scheme = .ok Scheme.Https) →
        ∃ h, HttpUrl.try_from u = some (.ok h)) := by
  obtain ⟨c, hc⟩ : ∃ c, Scheme.from_str u.scheme = .ok c := ⟨_, rfl⟩
  by_cases hcc : c ≠ Scheme.Http ∧ c ≠ Scheme.Https
  · have he : HttpUrl.try_from u =
        some (.error (error_unsupported_url_scheme u.scheme)) := by
      unfold HttpUrl.try_from
      rw [hc]
      dsimp only
      rw [if_pos hcc]
    refine ⟨⟨fun _ => ?_, fun _ => ⟨_, he⟩⟩, fun e h2 => ?_, fun _ hor => ?_⟩
    · rw [hc]
      constructor
      · intro hx
        injection hx with hx
        exact hcc.1 hx
      · intro hx
        injection hx with hx
        exact hcc.2 hx
    · rw [he] at h2
      injection h2 with h2
      injection h2 with h2
      exact h2.symm
    · exfalso
      rcases hor with h1 | h1 <;> rw [hc] at h1 <;> injection h1 with h1
      · exact hcc.1 h1
      · exact hcc.2 h1
  · rw [not_and_or, not_not, not_not] at hcc
    have herr : ∀ e, HttpUrl.try_from u ≠ some (.error e) := by
      intro e he
      unfold HttpUrl.try_from at he
      rw [hc] at he
      dsimp only at he
      rw [if_neg (by rw [not_and_or, not_not, not_not]; exact hcc)] at he
      split at he
      · exact absurd he (by simp)
      · exact absurd he (by simp)
    refine ⟨⟨fun ⟨e, he⟩ => absurd he (herr e), fun ⟨hne, hne2⟩ => ?_⟩,
      fun e he => absurd he (herr e), fun hwf _ => ?_⟩
    · exfalso
      rcases hcc with h1 | h1
      · exact hne (by rw [hc, h1])
      · exact hne2 (by rw [hc, h1])
    · have hs : u.scheme = "http" ∨ u.scheme = "https" := by
        rcases hcc with h1 | h1
        · exact Or.inl (wf_scheme_http u hwf (by rw [← h1]; exact hc))
        · exact Or.inr (wf_scheme_https u hwf (by rw [← h1]; exact hc))
      obtain ⟨hst, hho, -⟩ := wf_host u hwf hs
      exact ⟨_, try_from_mk u c hc hcc hst hho⟩

/-- Witness for C3: the file URL of the parse_http_url_from_other_scheme
test is rejected with the message unsupported URL scheme file. -/
theorem try_from_unsupported_scheme_spec_witness :
    HttpUrl.try_from urlFile =
      some (.error (Error.UrlError "unsupported URL scheme file")) := by
  have H := try_from_unsupported_scheme_spec urlFile
  obtain ⟨e, he⟩ := H.1.mpr ⟨by decide, by decide⟩
  have hm := H.2.1 e he
  rw [hm] at he
  have hconv :
      (some (.error (Error.UrlError ("unsupported URL scheme " ++ urlFile.scheme))) :
        Option (Except Error HttpUrl)) =
      some (.error (Error.UrlError "unsupported URL scheme file")) := by decide
  rw [hconv] at he
  exact he

/-- C4: scheme classification is total (always Ok, for any input
string), lowercases the token, maps http, https and file to their
variants and any other token to Other carrying the lowercased token; it
is a pure function of its argument. -/
theorem scheme_from_str_total_spec (s : String) :
    (∃ c, Scheme.from_str s = .ok c) ∧
    (lowerStr s = "http" → Scheme.from_str s = .ok Scheme.Http) ∧
    (lowerStr s = "https" → Scheme.from_str s = .ok Scheme.Https) ∧
    (lowerStr s = "file" → Scheme.from_str s = .ok Scheme.File) ∧
    (lowerStr s ≠ "http" → lowerStr s ≠ "https" → lowerStr s ≠ "file" →
      Scheme.from_str s = .ok (.Other (lowerStr s))) := by
  refine ⟨⟨_, rfl⟩, ?_, ?_, ?_, ?_⟩
  · intro h
    unfold Scheme.from_str
    rw [h]
    rfl
  · intro h
    unfold Scheme.from_str
    rw [h]
    rfl
  · intro h
    unfold Scheme.from_str
    rw [h]
    rfl
  · intro h1 h2 h3
    unfold Scheme.from_str
    congr 1
    split
    · exact absurd (by assumption) h1
    · exact absurd (by assumption) h2
    · exact absurd (by assumption) h3
    · rfl

/-- Witness for C4 at a concrete unrecognized mixed-case token. -/
theorem scheme_from_str_total_spec_witness :
    Scheme.from_str "GoPher" = .ok (.Other "gopher") := by
  have h := (scheme_from_str_total_spec "GoPher").2.2.2.2
    (by decide) (by decide) (by decide)
  have hconv : (Except.ok (Scheme.Other (lowerStr "GoPher")) : Except Error Scheme) =
      .ok (.Other "gopher") := by decide
  rw [hconv] at h
  exact h

/-- C5: every validated value constructed from a well-formed generic URL
satisfies the invariants: its stored scheme is exactly Http or Https and
its stored host is a non-empty string; the accessors return exactly the
stored (immutable) fields. -/
theorem http_url_invariants (u : Url) (hwf : u.wf) (h : HttpUrl)
    (hh : HttpUrl.try_from u = some (.ok h)) :
    (h.scheme = Scheme.Http ∨ h.scheme = Scheme.Https) ∧ h.host ≠ "" ∧
      HttpUrl.getScheme h = h.scheme ∧ HttpUrl.getHost h = h.host := by
  obtain ⟨hu, hc, hor, hhost⟩ := try_from_inv u h hh
  refine ⟨hor, ?_, rfl, rfl⟩
  have hs : u.scheme = "http" ∨ u.scheme = "https" := by
    rcases hor with h1 | h1
    · exact Or.inl (wf_scheme_http u hwf (by rw [← h1]; exact hc))
    · exact Or.inr (wf_scheme_https u hwf (by rw [← h1]; exact hc))
  obtain ⟨hst, hho, hne⟩ := wf_host u hwf hs
  rw [hhost] at hho
  injection hho with hho
  rw [hho]
  exact hne

/-- Witness for C5 at the concrete validated http URL for a.com. -/
theorem http_url_invariants_witness :
    (httpUrlACom.scheme = Scheme.Http ∨ httpUrlACom.scheme = Scheme.Https) ∧
      httpUrlACom.host ≠ "" ∧
      HttpUrl.getScheme httpUrlACom = httpUrlACom.scheme ∧
      HttpUrl.getHost httpUrlACom = httpUrlACom.host :=
  http_url_invariants urlHttpACom (by decide) httpUrlACom (by decide)

/-- C6: with an external parser that only produces well-formed URLs (the
url crate guarantee), no operation of the core panics: the constructor
never reaches its host unwrap with None, on any string the composed
parse returns a typed result, and port() on any value so constructed
never reaches its unwrap with None. -/
theorem url_core_no_panic (P : String → Except String Url)
    (hP : ∀ s u, P s = .ok u → u.wf) :
    (∀ u, u.wf → HttpUrl.try_from u ≠ none ∧
      ∀ h, HttpUrl.try_from u = some (.ok h) →
        (HttpUrl.port h).isSome = true) ∧
    (∀ s, HttpUrl.from_str P s ≠ none ∧
      ∀ h, HttpUrl.from_str P s = some (.ok h) →
        (HttpUrl.port h).isSome = true) := by
  have hport : ∀ u, u.wf → ∀ h, HttpUrl.try_from u = some (.ok h) →
      (HttpUrl.port h).isSome = true := by
    intro u hwf h hh
    rw [port_master u hwf h hh]
    rfl
  refine ⟨fun u hwf => ⟨try_from_wf_not_panic u hwf, hport u hwf⟩, fun s => ?_⟩
  unfold HttpUrl.from_str
  cases hps : P s with
  | error e =>
    dsimp only
    exact ⟨by simp, fun h hh => absurd hh (by simp)⟩
  | ok u =>
    have hwf := hP s u hps
    exact ⟨try_from_wf_not_panic u hwf, hport u hwf⟩

/-- Witness for C6 with the concrete stand-in parser and the concrete
http URL for a.com. -/
theorem url_core_no_panic_witness :
    HttpUrl.try_from urlHttpACom ≠ none ∧
      HttpUrl.from_str stubP "http://a.com/" ≠ none := by
  have hP : ∀ s u, stubP s = .ok u → u.wf := by
    intro s u h
    unfold stubP at h
    split at h
    · injection h with h
      rw [← h]
      decide
    · exact absurd h (by simp)
  have H := url_core_no_panic stubP hP
  exact ⟨(H.1 urlHttpACom (by decide)).1, (H.2 "http://a.com/").1⟩

/-- C7: scheme classification is case-insensitive: classifying any token
gives the same result as classifying its lowercased form; in particular
HTTP and http both classify to the Http variant. -/
theorem scheme_classification_case_insensitive :
    (∀ t, Scheme.from_str t = Scheme.from_str (lowerStr t)) ∧
      Scheme.from_str "HTTP" = .ok Scheme.Http ∧
      Scheme.from_str "http" = .ok Scheme.Http := by
  refine ⟨fun t => ?_, by decide, by decide⟩
  unfold Scheme.from_str
  rw [lowerStr_idem]

/-- C8: the string entry point composes with the external parser: a
parser rejection is surfaced as an error wrapping the diagnostic string
unmodified, a parser success is handed to the validating constructor
whose result is returned exactly. -/
theorem from_str_composition (P : String → Except String Url) (s : String) :
    (∀ e, P s = .error e →
      HttpUrl.from_str P s = some (.error (.UrlError e))) ∧
    (∀ u, P s = .ok u → HttpUrl.from_str P s = HttpUrl.try_from u) := by
  constructor
  · intro e he
    unfold HttpUrl.from_str
    rw [he]
  · intro u hu
    unfold HttpUrl.from_str
    rw [hu]

/-- Witness for C8 with the concrete stand-in parser on a rejected and
an accepted input. -/
theorem from_str_composition_witness :
    HttpUrl.from_str stubP "nope" =
        some (.error (.UrlError "relative URL without a base")) ∧
      HttpUrl.from_str stubP "http://a.com/" = HttpUrl.try_from urlHttpACom :=
  ⟨(from_str_composition stubP "nope").1 _ (by decide),
    (from_str_composition stubP "http://a.com/").2 urlHttpACom (by decide)⟩

/-- C9: rendering is an idempotent fixed point: if the external parser
reparses its own rendering to the same URL value (the round-trip
contract of the generic parser, a black box here), then for every string
the composed parse accepts, rendering the parsed value, parsing that
rendering and rendering the result yields the identical string. -/
theorem render_parse_render_fixed_point (P : String → Except String Url)
    (hP : ∀ s u, P s = .ok u → P (Url.render u) = .ok u)
    (s : String) (h : HttpUrl)
    (hs : HttpUrl.from_str P s = some (.ok h)) :
    ∃ h2, HttpUrl.from_str P (HttpUrl.render h) = some (.ok h2) ∧
      HttpUrl.render h2 = HttpUrl.render h := by
  unfold HttpUrl.from_str at hs
  cases hps : P s with
  | error e =>
    rw [hps] at hs
    dsimp only at hs
    exact absurd hs (by simp)
  | ok u =>
    rw [hps] at hs
    dsimp only at hs
    obtain ⟨hu, -, -, -⟩ := try_from_inv u h hs
    refine ⟨h, ?_, rfl⟩
    have hr : HttpUrl.render h = Url.render u := by
      unfold HttpUrl.render
      rw [hu]
    unfold HttpUrl.from_str
    rw [hr, hP s u hps]
    exact hs

/-- Witness for C9 with the concrete stand-in parser, which satisfies
the round-trip contract on its single accepted input. -/
theorem render_parse_render_fixed_point_witness :
    ∃ h2, HttpUrl.from_str stubP (HttpUrl.render httpUrlACom) =
        some (.ok h2) ∧
      HttpUrl.render h2 = HttpUrl.render httpUrlACom := by
  have hP : ∀ s u, stubP s = .ok u → stubP (Url.render u) = .ok u := by
    intro s u h
    unfold stubP at h
    split at h
    · injection h with h
      rw [← h]
      decide
    · exact absurd h (by simp)
  exact render_parse_render_fixed_point stubP hP "http://a.com/" httpUrlACom
    (by decide)

/-- C10: the two string entry points coincide: for every parser and
every input string, the TryFrom of a string slice implementation returns
exactly the result of the FromStr implementation, by delegation. -/
theorem try_from_str_coincides_from_str (P : String → Except String Url)
    (s : String) :
    HttpUrl.try_from_str P s = HttpUrl.from_str P s := rfl
